import Mathlib

/-!
# Verification of the flight-data normalization and presentation pipeline

Shallow embedding of the core of `src/aiagent.py`: the functions
`parse_flights`, `format_flight_for_humans`, `get_cheapest_flight` and
`simplify_parsed_flights`, together with the raw and normalized data model
they operate on.

Modelling conventions:
* JSON objects become Lean structures; identifiers are `String`.
* A raw payload's five top-level keys are `Option (List _)` fields, so that
  a missing key (`data.get(k, [])` in the source) is representable.
* Timestamps are modelled as already-parsed calendar instants (`DateTime`
  below); `datetime.fromisoformat` on a well-formed ISO string is the
  identity of this model.  The `strftime` patterns used by the source are
  embedded as explicit rendering functions.
* Prices are rationals; the Python two-decimal float format becomes
  `formatPrice`, rounding to a whole number of cents and printing exactly
  two fractional digits.
* A Python dict built by comprehension keeps the last record for a
  duplicated key (`dictLookup`); a failed subscript raises a key error
  carrying the key, and subscripting an empty list raises an index error —
  both appear as the `ParseError` type, and fallible code returns
  `Except ParseError _`.
-/

/-- A parsed timestamp (exactly the fields the rendering patterns need). -/
structure DateTime where
  year : Nat
  month : Nat
  day : Nat
  hour : Nat
  minute : Nat
deriving DecidableEq

/-- Raw places record: an id and a display code. -/
structure RawPlace where
  id : String
  display_code : String
deriving DecidableEq

/-- Raw carriers record: an id, a full name and a display code. -/
structure RawCarrier where
  id : String
  name : String
  display_code : String
deriving DecidableEq

/-- Raw segments record. -/
structure RawSegment where
  id : String
  marketing_carrier_id : String
  marketing_flight_number : String
  origin_place_id : String
  destination_place_id : String
  departure : DateTime
  arrival : DateTime
  duration : Int
deriving DecidableEq

/-- Raw legs record. -/
structure RawLeg where
  id : String
  origin_place_id : String
  destination_place_id : String
  departure : DateTime
  arrival : DateTime
  duration : Int
  segment_ids : List String
deriving DecidableEq

/-- Inner price object of a pricing option (the field `amount`). -/
structure PriceVal where
  amount : ℚ
deriving DecidableEq

/-- One entry of an itinerary's pricing options (the field `price`). -/
structure PricingOption where
  price : PriceVal
deriving DecidableEq

/-- Raw itineraries record: pricing options and leg identifiers. -/
structure RawItinerary where
  pricing_options : List PricingOption
  leg_ids : List String
deriving DecidableEq

/-- The raw payload.  Each top-level key may be absent (`none`), matching
the defaulting subscript `data.get(key, [])` in the source. -/
structure RawData where
  legs : Option (List RawLeg)
  places : Option (List RawPlace)
  carriers : Option (List RawCarrier)
  segments : Option (List RawSegment)
  itineraries : Option (List RawItinerary)
deriving DecidableEq

/-- Errors a raw subscript can raise: `keyError` on a missing dictionary
key (carrying the key, as Python's KeyError does — the source has no
MissingReferenceError), `indexError` on subscripting an empty list. -/
inductive ParseError where
  | keyError (id : String)
  | indexError
deriving DecidableEq

/-- Lookup in a dict built by comprehension over a list of records keyed by
id: the last record with the key wins, absent keys give `none`. -/
def dictLookup {α : Type} (key : α → String) (l : List α) (k : String) : Option α :=
  l.foldl (fun acc x => if key x = k then some x else acc) none

/-- Subscripting the lookup table, raising `keyError k` if `k` is absent. -/
def lookupE {α : Type} (key : α → String) (tbl : List α) (k : String) :
    Except ParseError α :=
  match dictLookup key tbl k with
  | some v => Except.ok v
  | none => Except.error (ParseError.keyError k)

/-- Normalized segment record built inside the leg formatter of
`parse_flights`. -/
structure NormalizedSegment where
  segment_id : String
  airline : String
  airline_code : String
  flight_number : String
  origin : String
  destination : String
  departure_time : DateTime
  arrival_time : DateTime
  duration : Int
deriving DecidableEq

/-- Normalized leg record built by the leg formatter of `parse_flights`. -/
structure NormalizedLeg where
  origin : String
  destination : String
  departure_time : DateTime
  arrival_time : DateTime
  duration : Int
  segments : List NormalizedSegment
  is_direct : Bool
deriving DecidableEq

/-- Normalized itinerary; `ret` is the Python key named `return`. -/
structure NormalizedItinerary where
  price_usd : ℚ
  outbound : NormalizedLeg
  ret : NormalizedLeg
deriving DecidableEq

/-- Expansion of one segment id inside the leg formatter of
`parse_flights`: resolve the segment, its marketing carrier and its
origin/destination places, in source order. -/
def buildSegment (places : List RawPlace) (carriers : List RawCarrier)
    (segments : List RawSegment) (sid : String) :
    Except ParseError NormalizedSegment :=
  match lookupE RawSegment.id segments sid with
  | Except.error e => Except.error e
  | Except.ok seg =>
    match lookupE RawCarrier.id carriers seg.marketing_carrier_id with
    | Except.error e => Except.error e
    | Except.ok carrier =>
      match lookupE RawPlace.id places seg.origin_place_id with
      | Except.error e => Except.error e
      | Except.ok op =>
        match lookupE RawPlace.id places seg.destination_place_id with
        | Except.error e => Except.error e
        | Except.ok dp =>
          Except.ok
            { segment_id := sid
              airline := carrier.name
              airline_code := carrier.display_code
              flight_number := seg.marketing_flight_number
              origin := op.display_code
              destination := dp.display_code
              departure_time := seg.departure
              arrival_time := seg.arrival
              duration := seg.duration }

/-- The loop over a leg's segment ids: expand in order, abort on the first
unresolved reference. -/
def buildSegments (places : List RawPlace) (carriers : List RawCarrier)
    (segments : List RawSegment) : List String →
    Except ParseError (List NormalizedSegment)
  | [] => Except.ok []
  | sid :: rest =>
    match buildSegment places carriers segments sid with
    | Except.error e => Except.error e
    | Except.ok ns =>
      match buildSegments places carriers segments rest with
      | Except.error e => Except.error e
      | Except.ok tail => Except.ok (ns :: tail)

/-- The local leg-shaping closure of `parse_flights`: resolve the leg's
origin and destination display codes, expand its segments, and derive
`is_direct` as the segment count being exactly one. -/
def format_leg (places : List RawPlace) (carriers : List RawCarrier)
    (segments : List RawSegment) (leg : RawLeg) :
    Except ParseError NormalizedLeg :=
  match lookupE RawPlace.id places leg.origin_place_id with
  | Except.error e => Except.error e
  | Except.ok originP =>
    match lookupE RawPlace.id places leg.destination_place_id with
    | Except.error e => Except.error e
    | Except.ok destP =>
      match buildSegments places carriers segments leg.segment_ids with
      | Except.error e => Except.error e
      | Except.ok segs =>
        Except.ok
          { origin := originP.display_code
            destination := destP.display_code
            departure_time := leg.departure
            arrival_time := leg.arrival
            duration := leg.duration
            segments := segs
            is_direct := segs.length == 1 }

/-- One pass of the itinerary loop body of `parse_flights`.  Order follows
the source: the price is subscripted out of the first pricing option
**before** the round-trip check; an itinerary whose leg-id list has length
other than 2 is then skipped (`ok none`); otherwise both legs are resolved
and shaped. -/
def parseItin (legs : List RawLeg) (places : List RawPlace)
    (carriers : List RawCarrier) (segments : List RawSegment)
    (itin : RawItinerary) : Except ParseError (Option NormalizedItinerary) :=
  match itin.pricing_options with
  | [] => Except.error ParseError.indexError
  | opt :: _ =>
    match itin.leg_ids with
    | [outId, retId] =>
      match lookupE RawLeg.id legs outId with
      | Except.error e => Except.error e
      | Except.ok outbound_leg =>
        match lookupE RawLeg.id legs retId with
        | Except.error e => Except.error e
        | Except.ok return_leg =>
          match format_leg places carriers segments outbound_leg with
          | Except.error e => Except.error e
          | Except.ok ob =>
            match format_leg places carriers segments return_leg with
            | Except.error e => Except.error e
            | Except.ok rb =>
              Except.ok (some
                { price_usd := opt.price.amount
                  outbound := ob
                  ret := rb })
    | _ => Except.ok none

/-- The whole itinerary loop: results are appended in input order, a skip
contributes nothing, and an uncaught error aborts the remainder (the Python
exception propagates out of `parse_flights`, so nothing is returned). -/
def parseItins (legs : List RawLeg) (places : List RawPlace)
    (carriers : List RawCarrier) (segments : List RawSegment) :
    List RawItinerary → Except ParseError (List NormalizedItinerary)
  | [] => Except.ok []
  | it :: rest =>
    match parseItin legs places carriers segments it with
    | Except.error e => Except.error e
    | Except.ok none => parseItins legs places carriers segments rest
    | Except.ok (some ni) =>
      match parseItins legs places carriers segments rest with
      | Except.error e => Except.error e
      | Except.ok tail => Except.ok (ni :: tail)

/-- Embedding of `parse_flights` of `src/aiagent.py`: build the four lookup
tables from the payload (missing keys default to empty arrays) and run the
itinerary loop. -/
def parse_flights (data : RawData) : Except ParseError (List NormalizedItinerary) :=
  parseItins (data.legs.getD []) (data.places.getD []) (data.carriers.getD [])
    (data.segments.getD []) (data.itineraries.getD [])

/-- Zero-pad to two digits (month, day, hour and minute directives). -/
def pad2 (n : Nat) : String :=
  if n < 10 then ("0") ++ toString n else toString n

/-- Zero-pad a year to four digits. -/
def pad4 (n : Nat) : String :=
  if n < 10 then ("000") ++ toString n
  else if n < 100 then ("00") ++ toString n
  else if n < 1000 then ("0") ++ toString n
  else toString n

/-- Hour on the 12-hour clock: 0 maps to 12, 13 maps to 1, and so on. -/
def hour12 (h : Nat) : Nat :=
  if h % 12 = 0 then 12 else h % 12

/-- Morning or afternoon marker of the 12-hour clock. -/
def ampm (h : Nat) : String :=
  if h < 12 then "AM" else "PM"

/-- Rendering of a full date plus a 12-hour time with the AM/PM marker. -/
def fmtTime12Full (t : DateTime) : String :=
  pad4 t.year ++ "-" ++ pad2 t.month ++ "-" ++ pad2 t.day ++ " " ++
    pad2 (hour12 t.hour) ++ ":" ++ pad2 t.minute ++ " " ++ ampm t.hour

/-- Rendering of a 12-hour time with the AM/PM marker. -/
def fmtTime12 (t : DateTime) : String :=
  pad2 (hour12 t.hour) ++ ":" ++ pad2 t.minute ++ " " ++ ampm t.hour

/-- Rendering of a full date plus a 24-hour time. -/
def fmtTime24Full (t : DateTime) : String :=
  pad4 t.year ++ "-" ++ pad2 t.month ++ "-" ++ pad2 t.day ++ " " ++
    pad2 t.hour ++ ":" ++ pad2 t.minute

/-- Rendering of a 24-hour time. -/
def fmtTime24 (t : DateTime) : String :=
  pad2 t.hour ++ ":" ++ pad2 t.minute

/-- Two-decimal price rendering on a rational price: round to whole cents
and print exactly two digits after the decimal point. -/
def formatPrice (q : ℚ) : String :=
  let sign := if q < 0 then "-" else ""
  let cents : ℤ := round (|q| * 100)
  sign ++ toString (cents.toNat / 100) ++ "." ++ pad2 (cents.toNat % 100)

/-- One bullet line per segment of `format_flight_for_humans`. -/
def formatSegLine (seg : NormalizedSegment) : String :=
  "  - " ++ seg.airline ++ " " ++ seg.airline_code ++ seg.flight_number ++ ": " ++
    seg.origin ++ " → " ++ seg.destination ++ ", " ++
    "Dep: " ++ fmtTime12 seg.departure_time ++ ", " ++
    "Arr: " ++ fmtTime12 seg.arrival_time ++ ", " ++
    "Duration: " ++ toString seg.duration ++ " min"

/-- The local leg block of `format_flight_for_humans`. -/
def formatLegBlock (leg_name : String) (leg : NormalizedLeg) : String :=
  String.intercalate ("\n")
    ([leg_name ++ " Flight:",
      "- From " ++ leg.origin ++ " to " ++ leg.destination,
      "- Departure: " ++ fmtTime12Full leg.departure_time,
      "- Arrival: " ++ fmtTime12Full leg.arrival_time,
      "- Duration: " ++ toString leg.duration ++ " minutes",
      "- Direct Flight: " ++ (if leg.is_direct then "Yes" else "No"),
      "- Segments:"] ++ leg.segments.map formatSegLine)

/-- Embedding of `format_flight_for_humans` of `src/aiagent.py`. -/
def format_flight_for_humans (flight : NormalizedItinerary) : String :=
  String.intercalate ("\n\n")
    ["Price: $" ++ formatPrice flight.price_usd,
     formatLegBlock ("Outbound") flight.outbound,
     formatLegBlock ("Return") flight.ret]

/-- Embedding of the batch formatter: a pure sequence mapping. -/
def format_flights (flights : List NormalizedItinerary) : List String :=
  flights.map format_flight_for_humans

/-- The fold performed by Python's keyed minimum: scan left to right and
replace the champion only on a strictly smaller key, so the first minimum
wins ties. -/
def minFold {α : Type} (price : α → ℚ) (acc : α) (l : List α) : α :=
  l.foldl (fun best x => if price x < price best then x else best) acc

/-- Embedding of `get_cheapest_flight` of `src/aiagent.py`, generic in the
record type because the Python is duck-typed over anything exposing a
`price_usd` key (it is applied to both normalized and simplified records);
`price` is the key function.  Empty input returns `none`. -/
def get_cheapest_flight {α : Type} (price : α → ℚ) (flights : List α) : Option α :=
  match flights with
  | [] => none
  | f :: fs => some (minFold price f fs)

/-- Compressed leg of `simplify_parsed_flights`. -/
structure CompressedLeg where
  route : String
  departure : String
  arrival : String
  segments : List String
deriving DecidableEq

/-- Compressed itinerary of `simplify_parsed_flights`. -/
structure CompressedItinerary where
  price_usd : ℚ
  outbound : CompressedLeg
  ret : CompressedLeg
deriving DecidableEq

/-- One compact segment string of `simplify_parsed_flights`. -/
def simplifySegment (seg : NormalizedSegment) : String :=
  seg.airline_code ++ seg.flight_number ++ " " ++
    seg.origin ++ "→" ++ seg.destination ++ " " ++
    "(" ++ fmtTime24 seg.departure_time ++ "→" ++ fmtTime24 seg.arrival_time ++ ")"

/-- The local leg-compression closure of `simplify_parsed_flights`. -/
def simplifyLeg (leg : NormalizedLeg) : CompressedLeg :=
  { route := leg.origin ++ " → " ++ leg.destination
    departure := fmtTime24Full leg.departure_time
    arrival := fmtTime24Full leg.arrival_time
    segments := leg.segments.map simplifySegment }

/-- Compression of one itinerary (the loop body of
`simplify_parsed_flights`). -/
def compressItinerary (f : NormalizedItinerary) : CompressedItinerary :=
  { price_usd := f.price_usd
    outbound := simplifyLeg f.outbound
    ret := simplifyLeg f.ret }

/-- Embedding of `simplify_parsed_flights` of `src/aiagent.py`: the loop
runs over the positional truncation of the input to `max_results` entries
(no re-sorting) and appends one compressed record per kept itinerary. -/
def simplify_parsed_flights (flights : List NormalizedItinerary)
    (max_results : Nat) : List CompressedItinerary :=
  (flights.take max_results).map compressItinerary

/-! ## Concrete sample data for witnesses and counterexamples -/

def placeJFK : RawPlace := ⟨"P1", "JFK"⟩

def placeLAX : RawPlace := ⟨"P2", "LAX"⟩

def carrierDL : RawCarrier := ⟨"C1", "Delta", "DL"⟩

def segS1 : RawSegment :=
  ⟨"S1", "C1", "100", "P1", "P2", ⟨2024, 5, 1, 13, 30⟩, ⟨2024, 5, 1, 16, 45⟩, 195⟩

def legL1 : RawLeg :=
  ⟨"L1", "P1", "P2", ⟨2024, 5, 1, 13, 30⟩, ⟨2024, 5, 1, 16, 45⟩, 195, ["S1"]⟩

/-- A resolvable round-trip itinerary (two leg ids). -/
def itinRound : RawItinerary := ⟨[⟨⟨5⟩⟩], ["L1", "L1"]⟩

/-- A one-way itinerary (a single leg id), to be silently skipped. -/
def itinOneWay : RawItinerary := ⟨[⟨⟨7⟩⟩], ["L1"]⟩

/-- A payload holding one round-trip and one one-way itinerary. -/
def sampleData : RawData :=
  ⟨some [legL1], some [placeJFK, placeLAX], some [carrierDL], some [segS1],
    some [itinRound, itinOneWay]⟩

def nSeg1 : NormalizedSegment :=
  ⟨"S1", "Delta", "DL", "100", "JFK", "LAX",
    ⟨2024, 5, 1, 13, 30⟩, ⟨2024, 5, 1, 16, 45⟩, 195⟩

def nLeg1 : NormalizedLeg :=
  ⟨"JFK", "LAX", ⟨2024, 5, 1, 13, 30⟩, ⟨2024, 5, 1, 16, 45⟩, 195, [nSeg1], true⟩

def nItin1 : NormalizedItinerary := ⟨5, nLeg1, nLeg1⟩

/-- A round-trip itinerary with two pricing options, the first amount (9)
larger than the second (3): normalization must still pick 9. -/
def itinTwoOpts : RawItinerary := ⟨[⟨⟨9⟩⟩, ⟨⟨3⟩⟩], ["L1", "L1"]⟩

def nItin9 : NormalizedItinerary := ⟨9, nLeg1, nLeg1⟩

/-- A round-trip itinerary referencing a leg id absent from the table. -/
def cexBadItin : RawItinerary := ⟨[⟨⟨1⟩⟩], ["L404", "L404"]⟩

/-- A batch whose first itinerary has an unresolved leg reference and whose
second is fully resolvable. -/
def cexData : RawData :=
  ⟨some [legL1], some [placeJFK, placeLAX], some [carrierDL], some [segS1],
    some [cexBadItin, itinRound]⟩

/-- A non-round-trip itinerary with an empty pricing-options array. -/
def emptyPricingItin : RawItinerary := ⟨[], ["L1"]⟩

def emptyPricingData : RawData := ⟨none, none, none, none, some [emptyPricingItin]⟩

example : parse_flights sampleData = Except.ok [nItin1] := rfl

example : parse_flights cexData = Except.error (ParseError.keyError ("L404")) := rfl

/-! ## Helper lemmas -/

/-- The stable-minimum fold: its result splits the scanned list into a
strictly-more-expensive prefix, the result itself, and a suffix, and the
result is a minimum of the whole list.  Hence it is the first minimum. -/
lemma minFold_spec {α : Type} (price : α → ℚ) :
    ∀ (l : List α) (acc : α),
      ∃ pre post,
        acc :: l = pre ++ minFold price acc l :: post ∧
        (∀ x ∈ pre, price (minFold price acc l) < price x) ∧
        (∀ x ∈ acc :: l, price (minFold price acc l) ≤ price x) := by
  intro l
  induction l with
  | nil =>
    intro acc
    exact ⟨[], [], rfl, by simp, by simp [minFold]⟩
  | cons x xs ih =>
    intro acc
    by_cases hx : price x < price acc
    · obtain ⟨pre, post, h1, h2, h3⟩ := ih x
      have hstep : minFold price acc (x :: xs) = minFold price x xs := by
        simp [minFold, hx]
      refine ⟨acc :: pre, post, ?_, ?_, ?_⟩ <;> rw [hstep]
      · rw [List.cons_append, ← h1]
      · intro y hy
        rcases List.mem_cons.mp hy with hy | hy
        · rw [hy]; exact lt_of_le_of_lt (h3 x (by simp)) hx
        · exact h2 y hy
      · intro y hy
        rcases List.mem_cons.mp hy with hy | hy
        · rw [hy]; exact le_of_lt (lt_of_le_of_lt (h3 x (by simp)) hx)
        · exact h3 y hy
    · obtain ⟨pre, post, h1, h2, h3⟩ := ih acc
      have hstep : minFold price acc (x :: xs) = minFold price acc xs := by
        simp [minFold, hx]
      rcases pre with _ | ⟨a, pre2⟩
      · have h4 : acc = minFold price acc xs ∧ xs = post := by simpa using h1
        refine ⟨[], x :: xs, ?_, by simp, ?_⟩
        · rw [hstep, List.nil_append, ← h4.1]
        · intro y hy
          rw [hstep]
          rcases List.mem_cons.mp hy with hy | hy
          · rw [hy, ← h4.1]
          · rcases List.mem_cons.mp hy with hy | hy
            · rw [hy, ← h4.1]; exact le_of_not_lt hx
            · exact h3 y (List.mem_cons_of_mem acc hy)
      · have h4 : acc = a ∧ xs = pre2 ++ minFold price acc xs :: post := by
          simpa using h1
        have hacc : price (minFold price acc xs) < price acc := by
          have h5 := h2 a (by simp)
          rwa [← h4.1] at h5
        refine ⟨acc :: x :: pre2, post, ?_, ?_, ?_⟩ <;> rw [hstep]
        · rw [List.cons_append, List.cons_append, ← h4.2]
        · intro y hy
          rcases List.mem_cons.mp hy with hy | hy
          · rw [hy]; exact hacc
          · rcases List.mem_cons.mp hy with hy | hy
            · rw [hy]; exact lt_of_lt_of_le hacc (le_of_not_lt hx)
            · exact h2 y (List.mem_cons_of_mem a hy)
        · intro y hy
          rcases List.mem_cons.mp hy with hy | hy
          · rw [hy]; exact h3 acc (by simp)
          · rcases List.mem_cons.mp hy with hy | hy
            · rw [hy]; exact le_of_lt (lt_of_lt_of_le hacc (le_of_not_lt hx))
            · exact h3 y (List.mem_cons_of_mem acc hy)

/-- An itinerary with no pricing option raises the index error before
anything else — in particular before the round-trip check. -/
lemma parseItin_empty_pricing (legs : List RawLeg) (places : List RawPlace)
    (carriers : List RawCarrier) (segments : List RawSegment)
    (it : RawItinerary) (h : it.pricing_options = []) :
    parseItin legs places carriers segments it = Except.error ParseError.indexError := by
  unfold parseItin
  rw [h]

/-- A skip (`ok none`) happens only for itineraries whose leg-id count is
not two. -/
lemma parseItin_ok_none_iff (legs : List RawLeg) (places : List RawPlace)
    (carriers : List RawCarrier) (segments : List RawSegment)
    (it : RawItinerary)
    (h : parseItin legs places carriers segments it = Except.ok none) :
    it.leg_ids.length ≠ 2 := by
  intro hlen
  obtain ⟨a, b, hab⟩ : ∃ a b, it.leg_ids = [a, b] := by
    rcases hl : it.leg_ids with _ | ⟨a, _ | ⟨b, _ | ⟨c, rest⟩⟩⟩ <;> simp_all
  unfold parseItin at h
  rcases hpo : it.pricing_options with _ | ⟨opt, rest⟩ <;> rw [hpo] at h
  · simp at h
  · rw [hab] at h
    dsimp only at h
    split at h
    · simp at h
    · split at h
      · simp at h
      · split at h
        · simp at h
        · split at h
          · simp at h
          · simp at h

/-- Inversion of a successful normalization of one itinerary: the pricing
options are non-empty, the leg-id list has exactly two entries, both legs
resolve and shape, and the record is assembled from the first pricing
option's amount and the two shaped legs. -/
lemma parseItin_ok_some_spec (legs : List RawLeg) (places : List RawPlace)
    (carriers : List RawCarrier) (segments : List RawSegment)
    (it : RawItinerary) (ni : NormalizedItinerary)
    (h : parseItin legs places carriers segments it = Except.ok (some ni)) :
    ∃ opt rest a b outLeg retLeg ob rb,
      it.pricing_options = opt :: rest ∧ it.leg_ids = [a, b] ∧
      lookupE RawLeg.id legs a = Except.ok outLeg ∧
      lookupE RawLeg.id legs b = Except.ok retLeg ∧
      format_leg places carriers segments outLeg = Except.ok ob ∧
      format_leg places carriers segments retLeg = Except.ok rb ∧
      ni = ⟨opt.price.amount, ob, rb⟩ := by
  unfold parseItin at h
  rcases hpo : it.pricing_options with _ | ⟨opt, rest⟩ <;> rw [hpo] at h
  · simp at h
  · rcases hl : it.leg_ids with _ | ⟨a, _ | ⟨b, _ | ⟨c, rest2⟩⟩⟩ <;> rw [hl] at h <;>
      dsimp only at h
    · simp at h
    · simp at h
    · split at h
      · simp at h
      · next outLeg houtLeg =>
        split at h
        · simp at h
        · next retLeg hretLeg =>
          split at h
          · simp at h
          · next ob hob =>
            split at h
            · simp at h
            · next rb hrb =>
              simp only [Except.ok.injEq, Option.some.injEq] at h
              exact ⟨opt, rest, a, b, outLeg, retLeg, ob, rb, rfl, rfl,
                houtLeg, hretLeg, hob, hrb, h.symm⟩
    · simp at h

/-- A successfully shaped leg carries the directness flag derived from its
own segment count. -/
lemma format_leg_is_direct (places : List RawPlace) (carriers : List RawCarrier)
    (segments : List RawSegment) (leg : RawLeg) (nl : NormalizedLeg)
    (h : format_leg places carriers segments leg = Except.ok nl) :
    nl.is_direct = (nl.segments.length == 1) := by
  unfold format_leg at h
  split at h
  · simp at h
  · split at h
    · simp at h
    · split at h
      · simp at h
      · simp only [Except.ok.injEq] at h
        rw [← h]

/-- A successful batch pairs the round-trip itineraries of the input, in
order, one-to-one with the produced records. -/
lemma parseItins_ok_forall₂ (legs : List RawLeg) (places : List RawPlace)
    (carriers : List RawCarrier) (segments : List RawSegment) :
    ∀ (its : List RawItinerary) (out : List NormalizedItinerary),
      parseItins legs places carriers segments its = Except.ok out →
      List.Forall₂
        (fun it ni => parseItin legs places carriers segments it = Except.ok (some ni))
        (its.filter (fun it => it.leg_ids.length == 2)) out := by
  intro its
  induction its with
  | nil =>
    intro out h
    simp only [parseItins, Except.ok.injEq] at h
    rw [← h]
    simp
  | cons it rest ih =>
    intro out h
    unfold parseItins at h
    split at h
    · simp at h
    · next hnone =>
      have hne := parseItin_ok_none_iff legs places carriers segments it hnone
      rw [List.filter_cons_of_neg (by simpa using hne)]
      exact ih out h
    · next ni hsome =>
      split at h
      · simp at h
      · next tail htail =>
        simp only [Except.ok.injEq] at h
        obtain ⟨opt, prest, a, b, _, _, _, _, _, hl, _⟩ :=
          parseItin_ok_some_spec legs places carriers segments it ni hsome
        rw [List.filter_cons_of_pos (by simp [hl]), ← h]
        exact List.Forall₂.cons hsome (ih tail htail)

/-- If any itinerary of the batch raises, the whole batch raises. -/
lemma parseItins_error_of_mem (legs : List RawLeg) (places : List RawPlace)
    (carriers : List RawCarrier) (segments : List RawSegment) :
    ∀ (its : List RawItinerary) (it : RawItinerary) (e : ParseError),
      it ∈ its →
      parseItin legs places carriers segments it = Except.error e →
      ∃ e2, parseItins legs places carriers segments its = Except.error e2 := by
  intro its
  induction its with
  | nil => intro it e hmem; exact absurd hmem (by simp)
  | cons hd rest ih =>
    intro it e hmem herr
    rcases List.mem_cons.mp hmem with hcase | hcase
    · refine ⟨e, ?_⟩
      unfold parseItins
      rw [← hcase, herr]
    · rcases hhd : parseItin legs places carriers segments hd with e1 | ob
      · exact ⟨e1, by unfold parseItins; rw [hhd]⟩
      · obtain ⟨e2, he2⟩ := ih it e hcase herr
        rcases ob with _ | ni
        · exact ⟨e2, by unfold parseItins; rw [hhd]; exact he2⟩
        · exact ⟨e2, by unfold parseItins; rw [hhd, he2]⟩

/-- In a successful batch every input itinerary was processed without
raising. -/
lemma parseItins_ok_elem (legs : List RawLeg) (places : List RawPlace)
    (carriers : List RawCarrier) (segments : List RawSegment) :
    ∀ (its : List RawItinerary) (out : List NormalizedItinerary),
      parseItins legs places carriers segments its = Except.ok out →
      ∀ it ∈ its, ∃ ob, parseItin legs places carriers segments it = Except.ok ob := by
  intro its
  induction its with
  | nil => intro out _ it hmem; exact absurd hmem (by simp)
  | cons hd rest ih =>
    intro out h it hmem
    unfold parseItins at h
    split at h
    · simp at h
    · next hnone =>
      rcases List.mem_cons.mp hmem with hcase | hcase
      · exact ⟨none, hcase ▸ hnone⟩
      · exact ih out h it hcase
    · next ni hsome =>
      split at h
      · simp at h
      · next tail htail =>
        rcases List.mem_cons.mp hmem with hcase | hcase
        · exact ⟨some ni, hcase ▸ hsome⟩
        · exact ih tail htail it hcase

/-- Every member of the right list of a pointwise relation has a related
member on the left. -/
lemma forall₂_mem_right {α β : Type} {R : α → β → Prop} :
    ∀ {l₁ : List α} {l₂ : List β}, List.Forall₂ R l₁ l₂ →
      ∀ b ∈ l₂, ∃ a ∈ l₁, R a b := by
  intro l₁ l₂ h
  induction h with
  | nil => intro b hb; exact absurd hb (by simp)
  | cons hr _ ih =>
    intro b hb
    rcases List.mem_cons.mp hb with hcase | hcase
    · exact ⟨_, by simp, hcase ▸ hr⟩
    · obtain ⟨a, ha, har⟩ := ih b hcase
      exact ⟨a, by simp [ha], har⟩

/-! ## Claims -/

/-- Claim C1: for every non-empty sequence of records exposing a price,
`get_cheapest_flight` returns an entry whose price equals the minimum price
across the sequence; the input splits into a strictly-more-expensive prefix
followed by the returned entry, so a tie for the minimum is broken by first
occurrence in input order; the empty sequence returns `none` and the
function is total (never raises). -/
theorem get_cheapest_flight_correct {α : Type} (price : α → ℚ) (flights : List α) :
    (flights = [] → get_cheapest_flight price flights = none) ∧
    (flights ≠ [] → ∃ r pre post,
      get_cheapest_flight price flights = some r ∧
      flights = pre ++ r :: post ∧
      (∀ x ∈ pre, price r < price x) ∧
      (∀ x ∈ flights, price r ≤ price x)) := by
  constructor
  · intro h; rw [h]; rfl
  · intro h
    rcases flights with _ | ⟨f, fs⟩
    · exact absurd rfl h
    · obtain ⟨pre, post, h1, h2, h3⟩ := minFold_spec price fs f
      exact ⟨minFold price f fs, pre, post, rfl, h1, h2, h3⟩

theorem get_cheapest_flight_correct_witness :
    ([(3 : ℚ), 1, 2] ≠ []) ∧ ∃ r pre post,
      get_cheapest_flight id [(3 : ℚ), 1, 2] = some r ∧
      [(3 : ℚ), 1, 2] = pre ++ r :: post ∧
      (∀ x ∈ pre, id r < id x) ∧
      (∀ x ∈ [(3 : ℚ), 1, 2], id r ≤ id x) :=
  ⟨by simp, (get_cheapest_flight_correct id [3, 1, 2]).2 (by simp)⟩

/-- Claim C2, counterexample: in a batch whose first itinerary references a
missing leg id and whose second itinerary is fully resolvable on its own,
`parse_flights` returns a key error naming only the id — so the unresolved
reference does **not** abort only the offending itinerary: the remaining
resolvable itinerary is not normalized and not returned, and the error is a
plain key error, not a MissingReferenceError naming a kind. -/
theorem parse_flights_batch_abort_cex :
    parse_flights cexData = Except.error (ParseError.keyError ("L404")) ∧
    parseItin [legL1] [placeJFK, placeLAX] [carrierDL] [segS1] itinRound
      = Except.ok (some nItin1) :=
  ⟨rfl, rfl⟩

/-- Claim C2 as amended: an identifier that does not resolve in its lookup
table raises a key error carrying the missing id, and the error aborts
normalization of the **entire batch** — whenever some itinerary of the
payload raises during normalization, `parse_flights` returns an error and
no itinerary at all is returned. -/
theorem parse_flights_unresolved_ref_aborts_batch (d : RawData) (it : RawItinerary)
    (e : ParseError) (h1 : it ∈ d.itineraries.getD [])
    (h2 : parseItin (d.legs.getD []) (d.places.getD [])
      (d.carriers.getD []) (d.segments.getD []) it = Except.error e) :
    ∃ e2, parse_flights d = Except.error e2 :=
  parseItins_error_of_mem _ _ _ _ _ it e h1 h2

theorem parse_flights_unresolved_ref_aborts_batch_witness :
    ∃ e2, parse_flights cexData = Except.error e2 :=
  parse_flights_unresolved_ref_aborts_batch cexData cexBadItin
    (ParseError.keyError ("L404")) (by simp [cexData]) rfl

/-- Claim C3: compressing with a maximum count returns exactly the minimum
of that count and the input length, and the result is the positional
truncation of the pointwise-compressed input — same relative order, no
re-sorting by price or any other key. -/
theorem simplify_parsed_flights_bound (flights : List NormalizedItinerary) (N : Nat) :
    (simplify_parsed_flights flights N).length = min N flights.length ∧
    simplify_parsed_flights flights N = (flights.map compressItinerary).take N := by
  constructor
  · simp [simplify_parsed_flights]
  · simp [simplify_parsed_flights, List.map_take]

/-- Claim C4: when normalization succeeds, its output pairs one-to-one and
in order with exactly the input itineraries whose leg-id list has length
two (each such itinerary produces exactly one record), and every input
itinerary with a different leg count was skipped silently (its processing
yields no record and no error). -/
theorem parse_flights_roundtrip_filter (d : RawData) (out : List NormalizedItinerary)
    (h : parse_flights d = Except.ok out) :
    List.Forall₂
      (fun it ni => parseItin (d.legs.getD []) (d.places.getD [])
        (d.carriers.getD []) (d.segments.getD []) it = Except.ok (some ni))
      ((d.itineraries.getD []).filter (fun it => it.leg_ids.length == 2)) out ∧
    ∀ it ∈ d.itineraries.getD [], it.leg_ids.length ≠ 2 →
      parseItin (d.legs.getD []) (d.places.getD [])
        (d.carriers.getD []) (d.segments.getD []) it = Except.ok none := by
  constructor
  · exact parseItins_ok_forall₂ _ _ _ _ _ out h
  · intro it hmem hlen
    obtain ⟨ob, hob⟩ := parseItins_ok_elem _ _ _ _ _ out h it hmem
    rcases ob with _ | ni
    · exact hob
    · obtain ⟨_, _, a, b, _, _, _, _, _, hl, _⟩ :=
        parseItin_ok_some_spec _ _ _ _ it ni hob
      exact absurd (by rw [hl]; rfl) hlen

theorem parse_flights_roundtrip_filter_witness :
    parseItin [legL1] [placeJFK, placeLAX] [carrierDL] [segS1] itinOneWay
      = Except.ok none :=
  (parse_flights_roundtrip_filter sampleData [nItin1] rfl).2 itinOneWay
    (by simp [sampleData]) (by simp [itinOneWay])

/-- Claim C5: a normalized itinerary's price is the amount of the **first**
entry of the raw itinerary's pricing options (which therefore need not be
the minimum across options). -/
theorem parseItin_price_from_first_option (legs : List RawLeg) (places : List RawPlace)
    (carriers : List RawCarrier) (segments : List RawSegment)
    (it : RawItinerary) (ni : NormalizedItinerary)
    (h : parseItin legs places carriers segments it = Except.ok (some ni)) :
    ∃ opt rest, it.pricing_options = opt :: rest ∧ ni.price_usd = opt.price.amount := by
  obtain ⟨opt, rest, a, b, _, _, ob, rb, hpo, _, _, _, _, _, hni⟩ :=
    parseItin_ok_some_spec legs places carriers segments it ni h
  exact ⟨opt, rest, hpo, by rw [hni]⟩

theorem parseItin_price_from_first_option_witness :
    ∃ opt rest, itinTwoOpts.pricing_options = opt :: rest ∧
      nItin9.price_usd = opt.price.amount :=
  parseItin_price_from_first_option [legL1] [placeJFK, placeLAX] [carrierDL] [segS1]
    itinTwoOpts nItin9 rfl

/-- Claim C6: for every normalized itinerary produced by `parse_flights`,
both the outbound and the return leg have `is_direct` true exactly when the
leg's segment sequence has exactly one element. -/
theorem parse_flights_is_direct (d : RawData) (out : List NormalizedItinerary)
    (h : parse_flights d = Except.ok out) :
    ∀ ni ∈ out,
      (ni.outbound.is_direct = true ↔ ni.outbound.segments.length = 1) ∧
      (ni.ret.is_direct = true ↔ ni.ret.segments.length = 1) := by
  intro ni hni
  have hf := parseItins_ok_forall₂ (d.legs.getD []) (d.places.getD [])
    (d.carriers.getD []) (d.segments.getD []) (d.itineraries.getD []) out h
  obtain ⟨it, _, hsome⟩ := forall₂_mem_right hf ni hni
  obtain ⟨opt, rest, a, b, outLeg, retLeg, ob, rb, _, _, _, _, hfo, hfr, hni2⟩ :=
    parseItin_ok_some_spec _ _ _ _ it ni hsome
  have hdo := format_leg_is_direct _ _ _ _ ob hfo
  have hdr := format_leg_is_direct _ _ _ _ rb hfr
  rw [hni2]
  constructor
  · show ob.is_direct = true ↔ ob.segments.length = 1
    rw [hdo]; simp
  · show rb.is_direct = true ↔ rb.segments.length = 1
    rw [hdr]; simp

theorem parse_flights_is_direct_witness :
    (nItin1.outbound.is_direct = true ↔ nItin1.outbound.segments.length = 1) ∧
    (nItin1.ret.is_direct = true ↔ nItin1.ret.segments.length = 1) :=
  parse_flights_is_direct sampleData [nItin1] rfl nItin1 (by simp)

/-- Claim C7: the presentation formatter is total and its output is the
two-decimal price line followed by the Outbound block and then the Return
block; in particular the output begins with the price line, the concrete
price 387.20 renders as the string 387.20, and the time rendering used in
the blocks is the 12-hour clock (hour between 1 and 12) with the AM/PM
marker. -/
theorem format_flight_for_humans_spec (f : NormalizedItinerary) :
    format_flight_for_humans f =
      "Price: $" ++ formatPrice f.price_usd ++ "\n\n" ++
        formatLegBlock ("Outbound") f.outbound ++ "\n\n" ++
        formatLegBlock ("Return") f.ret ∧
    (∃ rest, format_flight_for_humans f = "Price: $" ++ (formatPrice f.price_usd ++ rest)) ∧
    formatPrice (1936 / 5 : ℚ) = "387.20" ∧
    ∀ t : DateTime,
      fmtTime12 t = pad2 (hour12 t.hour) ++ ":" ++ pad2 t.minute ++ " " ++ ampm t.hour ∧
      1 ≤ hour12 t.hour ∧ hour12 t.hour ≤ 12 ∧
      ampm t.hour = (if t.hour < 12 then "AM" else "PM") := by
  have hmain : format_flight_for_humans f =
      "Price: $" ++ formatPrice f.price_usd ++ "\n\n" ++
        formatLegBlock ("Outbound") f.outbound ++ "\n\n" ++
        formatLegBlock ("Return") f.ret := by
    simp [format_flight_for_humans, String.intercalate, String.intercalate.go,
      String.append_assoc]
  refine ⟨hmain, ?_, ?_, ?_⟩
  · refine ⟨"\n\n" ++ formatLegBlock ("Outbound") f.outbound ++ "\n\n" ++
      formatLegBlock ("Return") f.ret, ?_⟩
    rw [hmain]
    simp [String.append_assoc]
  · have hneg : ¬((1936 : ℚ) / 5 < 0) := by norm_num
    have habs : |(1936 : ℚ) / 5| * 100 = (38720 : ℚ) := by
      rw [abs_of_nonneg (by norm_num : (0 : ℚ) ≤ 1936 / 5)]
      norm_num
    have hround : round ((38720 : ℚ)) = 38720 := by norm_num [round_eq]
    simp only [formatPrice]
    rw [if_neg hneg, habs, hround]
    rfl
  · intro t
    refine ⟨rfl, ?_, ?_, rfl⟩
    · unfold hour12
      split <;> omega
    · unfold hour12
      split
      · omega
      · have h12 := Nat.mod_lt t.hour (show 0 < 12 by omega)
        omega

/-- Claim C8: normalization is deterministic — it is a pure function of the
payload alone (the embedding takes no clock or other ambient state), so two
runs on the same payload give identical output. -/
theorem parse_flights_deterministic (d1 d2 : RawData) (h : d1 = d2) :
    parse_flights d1 = parse_flights d2 := by rw [h]

theorem parse_flights_deterministic_witness :
    parse_flights sampleData = parse_flights sampleData :=
  parse_flights_deterministic sampleData sampleData rfl

/-- Claim C9: the price subscript precedes the round-trip check, so a
payload containing an itinerary with an empty pricing-options array — even
one whose leg count is not 2 and which would otherwise be silently
skipped — makes normalization fail with an error instead of skipping it. -/
theorem parse_flights_empty_pricing_aborts (d : RawData) (it : RawItinerary)
    (h1 : it ∈ d.itineraries.getD []) (h2 : it.pricing_options = []) :
    ∃ e, parse_flights d = Except.error e :=
  parseItins_error_of_mem _ _ _ _ _ it ParseError.indexError h1
    (parseItin_empty_pricing _ _ _ _ it h2)

theorem parse_flights_empty_pricing_aborts_witness :
    ∃ e, parse_flights emptyPricingData = Except.error e :=
  parse_flights_empty_pricing_aborts emptyPricingData emptyPricingItin
    (by simp [emptyPricingData]) rfl

/-- Claim C10: a payload with any of the five top-level keys absent behaves
exactly as if that key held an empty array; in particular a payload with no
itineraries key normalizes to the empty output list. -/
theorem parse_flights_missing_keys (d : RawData) :
    parse_flights d = parse_flights (RawData.mk (some (d.legs.getD []))
      (some (d.places.getD [])) (some (d.carriers.getD []))
      (some (d.segments.getD [])) (some (d.itineraries.getD []))) ∧
    (d.itineraries = none → parse_flights d = Except.ok []) := by
  constructor
  · rfl
  · intro h
    unfold parse_flights
    rw [h]
    rfl

theorem parse_flights_missing_keys_witness :
    parse_flights (RawData.mk none none none none none) = Except.ok [] :=
  (parse_flights_missing_keys (RawData.mk none none none none none)).2 rfl
